import Mathlib

/-
Verification of the wordware-mcp tool-invocation and SSE stream-consumption
layer.  The definitions below are shallow embeddings of `src/server.py`
(`DynamicMCPServer.register_tool`, the dynamically created `tool_function`)
and `src/wordware_mcp/client.py` (`WordwareClient.run_generic_tool`,
`WordwareClient._process_sse_stream_with_client`).  Python dictionaries are
modelled as insertion-ordered association lists, JSON values as the `JVal`
inductive, and the asynchronous stream as a list of received items.
-/

/-- JSON value: the universe of data flowing through the Python dicts of this
codebase.  Numbers are modelled as integers; the code under verification never
manipulates fractional numeric payloads. -/
inductive JVal where
  | str (s : String)
  | num (n : Int)
  | bool (b : Bool)
  | null
  | obj (fields : List (String × JVal))
  | arr (items : List JVal)
  deriving Repr

mutual

/-- Structural equality of JSON values, modelling Python `==` on the values
produced by `json.loads` (dict, list, str, int, bool, None). -/
def JVal.beq : JVal → JVal → Bool
  | .str a, .str b => a == b
  | .num a, .num b => a == b
  | .bool a, .bool b => a == b
  | .null, .null => true
  | .obj a, .obj b => JVal.beqFields a b
  | .arr a, .arr b => JVal.beqItems a b
  | _, _ => false

/-- Equality of the field lists of two JSON objects. -/
def JVal.beqFields : List (String × JVal) → List (String × JVal) → Bool
  | [], [] => true
  | (k1, v1) :: t1, (k2, v2) :: t2 => k1 == k2 && JVal.beq v1 v2 && JVal.beqFields t1 t2
  | _, _ => false

/-- Equality of the element lists of two JSON arrays. -/
def JVal.beqItems : List JVal → List JVal → Bool
  | [], [] => true
  | a :: t1, b :: t2 => JVal.beq a b && JVal.beqItems t1 t2
  | _, _ => false

end

instance : BEq JVal := ⟨JVal.beq⟩

/-- Python dictionary with string keys, in insertion order. -/
abbrev PyDict := List (String × JVal)

/-- Lookup in a string-keyed dict (first matching key). -/
def lookupKey (l : PyDict) (k : String) : Option JVal :=
  match l with
  | [] => none
  | (k0, v0) :: rest => if k0 = k then some v0 else lookupKey rest k

/-- Lookup with a default, modelling Python `d.get(k, default)`. -/
def lookupKeyD (l : PyDict) (k : String) (d : JVal) : JVal :=
  (lookupKey l k).getD d

/-- Membership test, modelling Python `k in d` for a dict `d`. -/
def containsKey (l : PyDict) (k : String) : Bool :=
  (lookupKey l k).isSome

/-- Dict store `d[k] = v`: replaces the value at an existing key in place,
otherwise appends the new binding at the end (Python insertion-order
semantics). -/
def upsert (l : PyDict) (k : String) (v : JVal) : PyDict :=
  match l with
  | [] => [(k, v)]
  | (k0, v0) :: rest => if k0 = k then (k, v) :: rest else (k0, v0) :: upsert rest k v

/-- Lookup in a dict whose keys are arbitrary JSON values, using Python
`==` on keys.  The stream accumulators are keyed by whatever the `path`
field of an event holds, which need not be a string. -/
def lookupJ {α : Type} (l : List (JVal × α)) (k : JVal) : Option α :=
  match l with
  | [] => none
  | (k0, v0) :: rest => if JVal.beq k0 k then some v0 else lookupJ rest k

/-- Membership test for a JVal-keyed dict. -/
def containsKeyJ {α : Type} (l : List (JVal × α)) (k : JVal) : Bool :=
  (lookupJ l k).isSome

/-- Store into a JVal-keyed dict, preserving insertion order. -/
def upsertJ {α : Type} (l : List (JVal × α)) (k : JVal) (v : α) : List (JVal × α) :=
  match l with
  | [] => [(k, v)]
  | (k0, v0) :: rest => if JVal.beq k0 k then (k, v) :: rest else (k0, v0) :: upsertJ rest k v

/-- Modify the value bound to key `k` (first occurrence) with `f`; identity
when the key is absent. -/
def modifyJ {α : Type} (l : List (JVal × α)) (k : JVal) (f : α → α) : List (JVal × α) :=
  match l with
  | [] => []
  | (k0, v0) :: rest =>
    if JVal.beq k0 k then (k0, f v0) :: rest else (k0, v0) :: modifyJ rest k f

/-- Backtick character (U+0060), written by code point. -/
def backtickChar : Char := Char.ofNat 96

/-- Left curly brace character, written by code point. -/
def lbraceChar : Char := Char.ofNat 123

/-- Right curly brace character, written by code point. -/
def rbraceChar : Char := Char.ofNat 125

/-- Drop the characters satisfying `p` from both ends of a list. -/
def stripListBoth (p : Char → Bool) (l : List Char) : List Char :=
  ((l.dropWhile p).reverse.dropWhile p).reverse

/-- Python `s.strip(c)`-style stripping: remove every leading and trailing
character satisfying `p`.  Interior characters are untouched. -/
def pyStrip (p : Char → Bool) (s : String) : String :=
  String.mk (stripListBoth p s.toList)

/-- Python `str.isspace` on the ASCII range (space, tab, newline, vertical
tab, form feed, carriage return, and the ASCII separator characters
28–31, all of which Python treats as whitespace). -/
def pyIsSpace (c : Char) : Bool :=
  c = ' ' || c = '\x09' || c = '\x0a' || c = '\x0b' || c = '\x0c' || c = '\x0d' ||
  c = '\x1c' || c = '\x1d' || c = '\x1e' || c = '\x1f'

/-- Python `str.isalpha` restricted to the ASCII range (the titles the
repository normalizes are modelled over ASCII; Python additionally accepts
non-ASCII Unicode letters). -/
def pyIsAlpha (c : Char) : Bool := c.isAlpha

/-- Python `str.lower` per character, ASCII range. -/
def pyToLower (c : Char) : Char := c.toLower

/-- Python `s.strip()` with no argument: strip ASCII whitespace from both
ends. -/
def pyStripWs (s : String) : String := pyStrip pyIsSpace s

/-- Python `s[-n:]`: the last `n` characters of `s` (all of `s` when it is
shorter than `n`). -/
def lastChars (n : Nat) (s : String) : String :=
  String.mk (s.toList.drop (s.toList.length - n))

/-- Boolean prefix test on character lists. -/
def listStartsWith : List Char → List Char → Bool
  | [], _ => true
  | _ :: _, [] => false
  | p :: ps, c :: cs => p = c && listStartsWith ps cs

/-- Python `s.startswith(pre)`. -/
def pyStartsWith (s pre : String) : Bool :=
  listStartsWith pre.toList s.toList

/-- Python `s.endswith(suf)`. -/
def pyEndsWith (s suf : String) : Bool :=
  listStartsWith suf.toList.reverse s.toList.reverse

/-- Python `s[n:]`. -/
def pyDrop (s : String) (n : Nat) : String :=
  String.mk (s.toList.drop n)

/-- Substring test, modelling Python `needle in haystack` for strings. -/
def strContainsSub (haystack needle : String) : Bool :=
  go haystack.toList
where
  go : List Char → Bool
  | [] => needle.toList.isEmpty
  | c :: cs => listStartsWith needle.toList (c :: cs) || go cs

/-- Python truthiness `bool(v)` of a JSON value: empty dict/list/string,
zero, `False` and `None` are falsy. -/
def pyTruthy : JVal → Bool
  | .str s => !s.isEmpty
  | .num n => n != 0
  | .bool b => b
  | .null => false
  | .obj fields => !fields.isEmpty
  | .arr items => !items.isEmpty

/-- Python `needle in container` for a JSON container value: key membership
for dicts, element membership (`==`) for lists, substring test for strings;
`none` models the `TypeError` raised on numbers, booleans and `None`. -/
def pyContains (container : JVal) (needle : String) : Option Bool :=
  match container with
  | .obj fields => some (containsKey fields needle)
  | .arr items => some (items.any (fun v => JVal.beq v (JVal.str needle)))
  | .str s => some (strContainsSub s needle)
  | _ => none

/-- Whitespace accepted between JSON tokens. -/
def jsonWs (c : Char) : Bool :=
  c = ' ' || c = '\x09' || c = '\x0a' || c = '\x0d'

/-- Skip inter-token JSON whitespace. -/
def skipJsonWs (cs : List Char) : List Char := cs.dropWhile jsonWs

/-- Value of a hexadecimal digit. -/
def hexVal (c : Char) : Option Nat :=
  if '0' ≤ c ∧ c ≤ '9' then some (c.toNat - 48)
  else if 'a' ≤ c ∧ c ≤ 'f' then some (c.toNat - 87)
  else if 'A' ≤ c ∧ c ≤ 'F' then some (c.toNat - 55)
  else none

/-- Parse exactly four hex digits. -/
def parseHex4 (cs : List Char) : Option (Nat × List Char) :=
  match cs with
  | a :: b :: c :: d :: rest =>
    match hexVal a, hexVal b, hexVal c, hexVal d with
    | some x, some y, some z, some w => some (((x * 16 + y) * 16 + z) * 16 + w, rest)
    | _, _, _, _ => none
  | _ => none

/-- Parse the body of a JSON string after the opening quote, handling the
standard escapes (surrogate-pair recombination is not modelled). -/
def parseJsonStringBody (fuel : Nat) (cs : List Char) (acc : List Char) :
    Option (String × List Char) :=
  match fuel with
  | 0 => none
  | fuel + 1 =>
    match cs with
    | [] => none
    | c :: rest =>
      if c = '\"' then some (String.mk acc.reverse, rest)
      else if c = '\\' then
        match rest with
        | [] => none
        | e :: rest2 =>
          if e = '\"' then parseJsonStringBody fuel rest2 ('\"' :: acc)
          else if e = '\\' then parseJsonStringBody fuel rest2 ('\\' :: acc)
          else if e = '/' then parseJsonStringBody fuel rest2 ('/' :: acc)
          else if e = 'b' then parseJsonStringBody fuel rest2 ('\x08' :: acc)
          else if e = 'f' then parseJsonStringBody fuel rest2 ('\x0c' :: acc)
          else if e = 'n' then parseJsonStringBody fuel rest2 ('\x0a' :: acc)
          else if e = 'r' then parseJsonStringBody fuel rest2 ('\x0d' :: acc)
          else if e = 't' then parseJsonStringBody fuel rest2 ('\x09' :: acc)
          else if e = 'u' then
            match parseHex4 rest2 with
            | some (n, rest3) => parseJsonStringBody fuel rest3 (Char.ofNat n :: acc)
            | none => none
          else none
      else parseJsonStringBody fuel rest (c :: acc)

/-- Accumulate a digit list into a natural number. -/
def digitsToNat (ds : List Char) : Nat :=
  ds.foldl (fun n c => n * 10 + (c.toNat - 48)) 0

/-- Parse a JSON integer literal.  Fractional and exponent forms are outside
the modelled subset and fail. -/
def parseJsonNumber (cs : List Char) : Option (JVal × List Char) :=
  let (neg, cs1) :=
    match cs with
    | c :: rest => if c = '-' then (true, rest) else (false, cs)
    | [] => (false, cs)
  let ds := cs1.takeWhile Char.isDigit
  let rest := cs1.drop ds.length
  if ds.isEmpty then none
  else
    match rest with
    | c :: _ =>
      if c = '.' || c = 'e' || c = 'E' then none
      else some (JVal.num (if neg then -(digitsToNat ds : Int) else (digitsToNat ds : Int)), rest)
    | [] => some (JVal.num (if neg then -(digitsToNat ds : Int) else (digitsToNat ds : Int)), rest)

mutual

/-- Recursive-descent JSON value parse with explicit fuel. -/
def parseJsonValue (fuel : Nat) (cs : List Char) : Option (JVal × List Char) :=
  match fuel with
  | 0 => none
  | fuel + 1 =>
    let cs := skipJsonWs cs
    match cs with
    | [] => none
    | c :: rest =>
      if c = lbraceChar then parseJsonObjFields fuel rest []
      else if c = '[' then parseJsonArrItems fuel rest []
      else if c = '\"' then
        match parseJsonStringBody (rest.length + 1) rest [] with
        | some (s, rest2) => some (JVal.str s, rest2)
        | none => none
      else if listStartsWith "null".toList cs then some (JVal.null, cs.drop 4)
      else if listStartsWith "true".toList cs then some (JVal.bool true, cs.drop 4)
      else if listStartsWith "false".toList cs then some (JVal.bool false, cs.drop 5)
      else parseJsonNumber cs

/-- Parse the fields of a JSON object after the opening brace.  Duplicate
keys overwrite in place (`json.loads` last-value-wins). -/
def parseJsonObjFields (fuel : Nat) (cs : List Char) (acc : PyDict) :
    Option (JVal × List Char) :=
  match fuel with
  | 0 => none
  | fuel + 1 =>
    let cs := skipJsonWs cs
    match cs with
    | [] => none
    | c :: rest =>
      if c = rbraceChar then some (JVal.obj acc, rest)
      else if c = '\"' then
        match parseJsonStringBody (rest.length + 1) rest [] with
        | some (k, rest2) =>
          match skipJsonWs rest2 with
          | ':' :: rest3 =>
            match parseJsonValue fuel rest3 with
            | some (v, rest4) =>
              let acc2 := upsert acc k v
              match skipJsonWs rest4 with
              | ',' :: rest5 => parseJsonObjFields fuel rest5 acc2
              | c2 :: rest5 => if c2 = rbraceChar then some (JVal.obj acc2, rest5) else none
              | [] => none
            | none => none
          | _ => none
        | none => none
      else none

/-- Parse the items of a JSON array after the opening bracket. -/
def parseJsonArrItems (fuel : Nat) (cs : List Char) (acc : List JVal) :
    Option (JVal × List Char) :=
  match fuel with
  | 0 => none
  | fuel + 1 =>
    let cs := skipJsonWs cs
    match cs with
    | [] => none
    | c :: rest =>
      if c = ']' then some (JVal.arr acc.reverse, rest)
      else
        match parseJsonValue fuel cs with
        | some (v, rest2) =>
          match skipJsonWs rest2 with
          | ',' :: rest3 => parseJsonArrItems fuel rest3 (v :: acc)
          | ']' :: rest3 => some (JVal.arr (v :: acc).reverse, rest3)
          | _ => none
        | none => none

end

/-- Model of Python `json.loads` on the JSON subset exercised by this
repository: parse a complete JSON document, requiring full consumption of
the input. -/
def jsonParse (s : String) : Option JVal :=
  match parseJsonValue (s.length + 1) s.toList with
  | some (v, rest) => if (skipJsonWs rest).isEmpty then some v else none
  | none => none

/-
Embedding of `src/server.py`, `DynamicMCPServer.register_tool` (tool-name
derivation and schema classification) and the dynamically created
`tool_function` (input normalization and result materialization).
-/

/-- Tool-name normalization from `register_tool` (server.py lines 88-93):
keep only alphabetic and whitespace characters of the title, lowercase the
result, then replace every space character with an underscore. -/
def normalizeTitle (rawTitle : String) : String :=
  let cleanTitle := rawTitle.toList.filter (fun c => pyIsAlpha c || pyIsSpace c)
  String.mk (cleanTitle.map (fun c =>
    let lc := pyToLower c
    if lc = ' ' then '_' else lc))

/-- Derived tool name (server.py lines 88-97): the normalized title, or the
synthetic `wordware_tool_` name built from the last 8 characters of the tool
ID when the normalized title is empty. -/
def deriveToolName (rawTitle toolId : String) : String :=
  let toolName := normalizeTitle rawTitle
  if toolName = "" then "wordware_tool_" ++ lastChars 8 toolId else toolName

/-- Schema classification from `register_tool` (server.py lines 104-135),
applied to the top-level `properties` dict of the input schema.  Returns the
cached `requires_kwargs_wrapper` flag together with the effective parameter
description (`kwargs_properties` when wrapping, the top-level properties
otherwise); `none` models the `AttributeError` raised (and caught, aborting
registration) when `properties["kwargs"]` is a non-dict whose membership
test for `"properties"` succeeds. -/
def resolveSchema (properties : PyDict) : Option (Bool × JVal) :=
  if properties.length = 1 ∧ containsKey properties "kwargs" then
    match lookupKey properties "kwargs" with
    | some kwv =>
      match pyContains kwv "properties" with
      | none => none
      | some true =>
        match kwv with
        | JVal.obj kw =>
          let kwargsProperties := lookupKeyD kw "properties" (JVal.obj [])
          if pyTruthy kwargsProperties then some (true, kwargsProperties)
          else some (false, JVal.obj properties)
        | _ => none
      | some false => some (false, JVal.obj properties)
    | none => some (false, JVal.obj properties)
  else some (false, JVal.obj properties)

/-- Strip backticks from a string value, leaving non-string values untouched
(server.py lines 180-183). -/
def stripValueBackticks : JVal → JVal
  | JVal.str s => JVal.str (pyStrip (fun c => c = backtickChar) s)
  | v => v

/-- Input normalization from `tool_function` (server.py lines 158-184).
When the argument set is exactly `kwargs` bound to a string, the string is
stripped of surrounding backticks and, when it looks like a JSON object,
parsed; a successful parse replaces the arguments, any failure keeps the
original single-key set (no exception escapes).  Otherwise every key and
every string value is stripped of surrounding backticks. -/
def processedInputs (kwargs : PyDict) : PyDict :=
  match kwargs with
  | [("kwargs", JVal.str s)] =>
    let kwargsValue := pyStrip (fun c => c = backtickChar) s
    if pyStartsWith kwargsValue "\x7b" && pyEndsWith kwargsValue "\x7d" then
      match jsonParse kwargsValue with
      | some (JVal.obj d) => d
      | _ => kwargs
    else kwargs
  | _ =>
    kwargs.foldl
      (fun acc kv =>
        upsert acc (pyStrip (fun c => c = backtickChar) kv.1) (stripValueBackticks kv.2))
      []

/-- Wrapping step of `tool_function` (server.py lines 188-198): when the
cached descriptor says `requires_kwargs_wrapper`, nest the processed inputs
under the single key `kwargs`. -/
def finalInputs (requiresKwargsWrapper : Bool) (processed : PyDict) : PyDict :=
  if requiresKwargsWrapper then [("kwargs", JVal.obj processed)] else processed

/-
Embedding of `src/wordware_mcp/client.py`, `WordwareClient.run_generic_tool`
(payload construction) and
`WordwareClient._process_sse_stream_with_client` (stream consumption).
-/

/-- Unwrapping step of `run_generic_tool` (client.py lines 330-334): when the
received inputs consist of exactly the key `kwargs` bound to a dict, the
inner dict becomes the actual inputs. -/
def actualInputs (inputs : PyDict) : PyDict :=
  match inputs with
  | [("kwargs", JVal.obj d)] => d
  | _ => inputs

/-- Run-submission payload of `run_generic_tool` (client.py lines 336-346):
`{data: {type: "runs", attributes: {version: "1.0", inputs: <actual>,
webhooks: []}}}`. -/
def runGenericToolPayload (inputs : PyDict) : JVal :=
  let actual := actualInputs inputs
  JVal.obj [("data", JVal.obj
    [("type", JVal.str "runs"),
     ("attributes", JVal.obj
       [("version", JVal.str "1.0"),
        ("inputs", JVal.obj actual),
        ("webhooks", JVal.arr [])])])]

/-- Navigation to the `inputs` field of a run-submission payload
(`payload["data"]["attributes"]["inputs"]`). -/
def payloadInputs (payload : JVal) : Option JVal :=
  match payload with
  | JVal.obj fields =>
    match lookupKey fields "data" with
    | some (JVal.obj dataFields) =>
      match lookupKey dataFields "attributes" with
      | some (JVal.obj attrFields) => lookupKey attrFields "inputs"
      | _ => none
    | _ => none
  | _ => none

/-- Accumulator state of `_process_sse_stream_with_client` (client.py lines
426-429): `value_events` (path to structured value) and `delta_paths` (path
to accumulated text). -/
structure AccState where
  values : List (JVal × JVal)
  deltas : List (JVal × String)
  deriving Repr

/-- Outcome of processing one received stream line: continue the loop,
break out of it (completion), or raise out of the loop body (an exception
other than `json.JSONDecodeError`, which the surrounding handler turns into
an error result). -/
inductive StepResult where
  | cont (st : AccState)
  | brk (st : AccState)
  | fatal (msg : String)
  deriving Repr

/-- Initialization of `delta_paths[path]` to the empty string on first sight
of a path (client.py lines 467-469); performed for every delta event before
the text-type test. -/
def initDelta (deltas : List (JVal × String)) (path : JVal) : List (JVal × String) :=
  if containsKeyJ deltas path then deltas else deltas ++ [(path, "")]

/-- Event dispatch of `_process_sse_stream_with_client` (client.py lines
452-487) on a successfully parsed JSON event object:
`value` upserts `values[path]`; `delta` initializes `deltas[path]` and
appends `delta.value` only when `delta.type == "text"`;
`status == "completed"` breaks; `ai.wordware.run.completed.v1` stores the
nested output at `values["completion_output"]` and breaks; anything else is
ignored.  `fatal` models the `TypeError`/`AttributeError` cases that escape
to the outer exception handler. -/
def dispatchEvent (st : AccState) (ev : PyDict) : StepResult :=
  let eventType := lookupKeyD ev "type" (JVal.str "unknown")
  if JVal.beq eventType (JVal.str "value") then
    let path := lookupKeyD ev "path" (JVal.str "unknown_path")
    let value := lookupKeyD ev "value" (JVal.obj [])
    StepResult.cont { st with values := upsertJ st.values path value }
  else if JVal.beq eventType (JVal.str "delta") then
    let path := lookupKeyD ev "path" (JVal.str "")
    match lookupKeyD ev "delta" (JVal.obj []) with
    | JVal.obj delta =>
      let deltas1 := initDelta st.deltas path
      if JVal.beq (lookupKeyD delta "type" JVal.null) (JVal.str "text") then
        match lookupKeyD delta "value" (JVal.str "") with
        | JVal.str v =>
          StepResult.cont { st with deltas := modifyJ deltas1 path (fun acc => acc ++ v) }
        | _ => StepResult.fatal "TypeError"
      else StepResult.cont { st with deltas := deltas1 }
    | _ => StepResult.fatal "AttributeError"
  else if JVal.beq eventType (JVal.str "status") &&
      JVal.beq (lookupKeyD ev "status" JVal.null) (JVal.str "completed") then
    StepResult.brk st
  else if JVal.beq eventType (JVal.str "ai.wordware.run.completed.v1") then
    if containsKey ev "data" then
      let dataVal := lookupKeyD ev "data" JVal.null
      match pyContains dataVal "output" with
      | none => StepResult.fatal "TypeError"
      | some true =>
        match dataVal with
        | JVal.obj dataFields =>
          StepResult.brk { st with
            values := upsertJ st.values (JVal.str "completion_output")
              (lookupKeyD dataFields "output" JVal.null) }
        | _ => StepResult.fatal "TypeError"
      | some false => StepResult.brk st
    else StepResult.brk st
  else StepResult.cont st

/-- Per-line processing of `_process_sse_stream_with_client` (client.py
lines 446-490): only lines starting with `data:` matter; the payload after
the marker is whitespace-stripped, empty payloads are skipped, malformed
JSON is logged and skipped (never fatal), and a parsed non-object payload
raises `AttributeError` at the first `.get` call. -/
def processLine (st : AccState) (line : String) : StepResult :=
  if pyStartsWith line "data:" then
    let data := pyStripWs (pyDrop line 5)
    if data = "" then StepResult.cont st
    else
      match jsonParse data with
      | none => StepResult.cont st
      | some (JVal.obj ev) => dispatchEvent st ev
      | some _ => StepResult.fatal "AttributeError"
  else StepResult.cont st

/-- Item received while iterating the SSE response: a line (tagged with the
wall-clock seconds elapsed since stream open at the moment the line is
handled) or a transport fault raised by the iteration itself. -/
inductive StreamItem where
  | line (elapsed : Nat) (text : String)
  | fault (msg : String)
  deriving Repr

/-- Wall-clock budget of the stream consumer (client.py line 431,
`max_wait_time = 180`). -/
def maxWaitTime : Nat := 180

/-- Terminal result of the stream consumer: `{output: value_events}` on any
successful exit, `{error: ...}` when the connection fails or an exception
escapes the line loop. -/
inductive StreamResult where
  | output (values : List (JVal × JVal))
  | error (msg : String)
  deriving Repr

/-- Finalization of `_process_sse_stream_with_client` (client.py lines
499-508): when no value events were collected but deltas were, every
accumulated delta is copied into the value map under its path; the result
is always the value map. -/
def finalizeStream (st : AccState) : List (JVal × JVal) :=
  if st.values.isEmpty && !st.deltas.isEmpty then
    st.deltas.map (fun pc => (pc.1, JVal.str pc.2))
  else st.values

/-- Line loop of `_process_sse_stream_with_client` (client.py lines
439-508): before each line the deadline is checked (exceeding it breaks out
to finalization, not to an error); a transport fault or an escaped
exception yields `{error: ...}`, discarding all accumulation; exhausting
the stream or receiving a completion event finalizes the accumulated
state. -/
def runStreamLoop (st : AccState) : List StreamItem → StreamResult
  | [] => StreamResult.output (finalizeStream st)
  | StreamItem.fault msg :: _ => StreamResult.error ("Stream error: " ++ msg)
  | StreamItem.line elapsed text :: rest =>
    if elapsed > maxWaitTime then StreamResult.output (finalizeStream st)
    else
      match processLine st text with
      | StepResult.cont st2 => runStreamLoop st2 rest
      | StepResult.brk st2 => StreamResult.output (finalizeStream st2)
      | StepResult.fatal msg => StreamResult.error ("Stream error: " ++ msg)

/-- Whole stream consumer `_process_sse_stream_with_client` (client.py lines
416-508).  `openFailure` models `response.raise_for_status()` on opening the
stream: `some msg` is a non-success HTTP status, turned into an immediate
error result with empty accumulators. -/
def processSSEStream (openFailure : Option String) (items : List StreamItem) : StreamResult :=
  match openFailure with
  | some msg => StreamResult.error ("Stream error: " ++ msg)
  | none => runStreamLoop ⟨[], []⟩ items

/-- Data selected for the caller-facing answer by the result-formatting tail
of `tool_function` (server.py lines 240-354), with the out-of-scope Markdown
rendering abstracted away: which payload the formatted reply is built
from. -/
inductive MatAnswer where
  | completionString (s : String)
  | completionResultField (v : JVal)
  | completionDump (v : JVal)
  | formattedOutput (output : PyDict)
  | errorAnswer (e : JVal)
  | rawDump (result : PyDict)
  deriving Repr

/-- Result materialization of `tool_function` (server.py lines 240-354):
an `output` key is inspected first; within it, a `completion_output` entry
wins (a string is returned verbatim, a dict containing `result` is unwrapped
to that entry, anything else is JSON-dumped); without `completion_output`
the whole output mapping is formatted.  Only when no `output` key exists is
an `error` key surfaced, and a result with neither key is JSON-dumped.
`none` models the uncaught exceptions on a non-dict `output` value. -/
def materializeResult (result : PyDict) : Option MatAnswer :=
  if containsKey result "output" then
    match lookupKeyD result "output" JVal.null with
    | JVal.obj output =>
      if containsKey output "completion_output" then
        match lookupKeyD output "completion_output" JVal.null with
        | JVal.str s => some (MatAnswer.completionString s)
        | JVal.obj completion =>
          if containsKey completion "result" then
            some (MatAnswer.completionResultField (lookupKeyD completion "result" JVal.null))
          else some (MatAnswer.completionDump (JVal.obj completion))
        | v => some (MatAnswer.completionDump v)
      else some (MatAnswer.formattedOutput output)
    | _ => none
  else if containsKey result "error" then
    some (MatAnswer.errorAnswer (lookupKeyD result "error" JVal.null))
  else some (MatAnswer.rawDump result)

/-
Helper lemmas.
-/

mutual

/-- Reflexivity of JSON-value equality. -/
theorem JVal.beq_refl : ∀ v : JVal, JVal.beq v v = true
  | .str s => by simp [JVal.beq]
  | .num n => by simp [JVal.beq]
  | .bool b => by simp [JVal.beq]
  | .null => rfl
  | .obj fields => by
    rw [JVal.beq]
    exact JVal.beqFields_refl fields
  | .arr items => by
    rw [JVal.beq]
    exact JVal.beqItems_refl items

/-- Reflexivity of object-field-list equality. -/
theorem JVal.beqFields_refl : ∀ l : List (String × JVal), JVal.beqFields l l = true
  | [] => rfl
  | (k, v) :: t => by
    rw [JVal.beqFields]
    simp only [Bool.and_eq_true, beq_self_eq_true, true_and]
    exact ⟨JVal.beq_refl v, JVal.beqFields_refl t⟩

/-- Reflexivity of array-item-list equality. -/
theorem JVal.beqItems_refl : ∀ l : List JVal, JVal.beqItems l l = true
  | [] => rfl
  | v :: t => by
    rw [JVal.beqItems]
    simp only [Bool.and_eq_true]
    exact ⟨JVal.beq_refl v, JVal.beqItems_refl t⟩

end

/-- Equality with a string literal through `JVal.beq`. -/
theorem JVal.beq_str_iff (x : JVal) (s : String) :
    JVal.beq x (JVal.str s) = true ↔ x = JVal.str s := by
  cases x <;> simp [JVal.beq]

/-- Order on `UInt32` transfers to `Nat`. -/
theorem uint32_le_toNat {a b : UInt32} : a ≤ b ↔ a.toNat ≤ b.toNat := by
  rw [UInt32.le_def, BitVec.le_def]
  exact Iff.rfl

/-- Code point of `Char.ofNat` below the surrogate range. -/
theorem char_toNat_ofNat_of_lt {m : Nat} (h : m < 55296) : (Char.ofNat m).toNat = m := by
  unfold Char.ofNat
  rw [dif_pos (Or.inl h)]
  rfl

/-- Code-point bounds of an ASCII letter. -/
theorem isAlpha_toNat {c : Char} (h : c.isAlpha = true) :
    (65 ≤ c.toNat ∧ c.toNat ≤ 90) ∨ (97 ≤ c.toNat ∧ c.toNat ≤ 122) := by
  simp only [Char.isAlpha, Char.isUpper, Char.isLower, ge_iff_le, Bool.or_eq_true,
    Bool.and_eq_true, decide_eq_true_eq] at h
  rcases h with ⟨h1, h2⟩ | ⟨h1, h2⟩
  · exact Or.inl ⟨uint32_le_toNat.mp h1, uint32_le_toNat.mp h2⟩
  · exact Or.inr ⟨uint32_le_toNat.mp h1, uint32_le_toNat.mp h2⟩

/-- Characters in the lowercase code-point range satisfy `isLower`. -/
theorem isLower_of_toNat {c : Char} (h1 : 97 ≤ c.toNat) (h2 : c.toNat ≤ 122) :
    c.isLower = true := by
  simp only [Char.isLower, ge_iff_le, Bool.and_eq_true, decide_eq_true_eq]
  exact ⟨uint32_le_toNat.mpr h1, uint32_le_toNat.mpr h2⟩

/-- Lowercasing an ASCII letter yields a lowercase letter. -/
theorem pyToLower_isLower {c : Char} (h : c.isAlpha = true) :
    (pyToLower c).isLower = true := by
  unfold pyToLower Char.toLower
  rcases isAlpha_toNat h with ⟨h1, h2⟩ | ⟨h1, h2⟩
  · rw [if_pos ⟨h1, h2⟩]
    have hlt : c.toNat + 32 < 55296 := by omega
    have hv := char_toNat_ofNat_of_lt hlt
    exact isLower_of_toNat (by omega) (by omega)
  · rw [if_neg (by omega)]
    exact isLower_of_toNat h1 h2

/-- Lowercase letters are not the space character. -/
theorem isLower_ne_space {c : Char} (h : c.isLower = true) : c ≠ ' ' := by
  intro he
  subst he
  exact absurd h (by decide)

/-
Claim theorems.
-/

/-- C1, counterexample.  The claim predicts that invoking a wrapping-mode
tool with the flat caller arguments `(a: 1, b: 2)` submits a run whose
`inputs` field is `(kwargs: (a: 1, b: 2))`.  In fact the `run_generic_tool`
payload carries the flat cleaned mapping itself: the wrapper added by
`tool_function` is stripped again by `run_generic_tool` before the payload
is built. -/
theorem wrapped_submission_counterexample :
    payloadInputs (runGenericToolPayload
        (finalInputs true (processedInputs [("a", JVal.num 1), ("b", JVal.num 2)]))) =
      some (JVal.obj [("a", JVal.num 1), ("b", JVal.num 2)]) ∧
    payloadInputs (runGenericToolPayload
        (finalInputs true (processedInputs [("a", JVal.num 1), ("b", JVal.num 2)]))) ≠
      some (JVal.obj [("kwargs", JVal.obj [("a", JVal.num 1), ("b", JVal.num 2)])]) := by
  constructor
  · rfl
  · intro h
    rw [show payloadInputs (runGenericToolPayload
        (finalInputs true (processedInputs [("a", JVal.num 1), ("b", JVal.num 2)]))) =
      some (JVal.obj [("a", JVal.num 1), ("b", JVal.num 2)]) from rfl] at h
    simp at h

/-- C1, amended.  For every tool in wrapping mode, the run submitted by
`run_generic_tool` carries as its `inputs` field the cleaned caller mapping
itself: `tool_function` wraps the cleaned mapping under the single key
`kwargs`, and `run_generic_tool` strips exactly that wrapper before building
the payload. -/
theorem submission_inputs_eq_processed_of_wrapper (rawArgs : PyDict) :
    payloadInputs (runGenericToolPayload (finalInputs true (processedInputs rawArgs))) =
      some (JVal.obj (processedInputs rawArgs)) := rfl

/-- C2.  The run payload built by `run_generic_tool` carries the inner dict
when the received inputs are exactly `kwargs` bound to a dict, and the
received inputs unchanged in every other case. -/
theorem run_generic_tool_unwraps_single_kwargs (inputs : PyDict) :
    (∀ d, inputs = [("kwargs", JVal.obj d)] →
      payloadInputs (runGenericToolPayload inputs) = some (JVal.obj d)) ∧
    ((∀ d, inputs ≠ [("kwargs", JVal.obj d)]) →
      payloadInputs (runGenericToolPayload inputs) = some (JVal.obj inputs)) := by
  have hnav : ∀ l : PyDict,
      payloadInputs (runGenericToolPayload l) = some (JVal.obj (actualInputs l)) :=
    fun _ => rfl
  constructor
  · intro d h
    subst h
    exact hnav _
  · intro h
    rw [hnav]
    have : actualInputs inputs = inputs := by
      unfold actualInputs
      split
      · next d => exact absurd rfl (h d)
      · rfl
    rw [this]

/-- C2, witness. -/
theorem run_generic_tool_unwraps_single_kwargs_witness :
    payloadInputs (runGenericToolPayload [("kwargs", JVal.obj [("x", JVal.num 1)])]) =
      some (JVal.obj [("x", JVal.num 1)]) :=
  (run_generic_tool_unwraps_single_kwargs [("kwargs", JVal.obj [("x", JVal.num 1)])]).1
    [("x", JVal.num 1)] rfl

/-- Keys survive appending a binding for a fresh key at the end. -/
theorem containsKeyJ_append_self {α : Type} (d : List (JVal × α)) (p : JVal) (v : α) :
    containsKeyJ (d ++ [(p, v)]) p = true := by
  induction d with
  | nil => simp [containsKeyJ, lookupJ, JVal.beq_refl]
  | cons h t ih =>
    obtain ⟨k0, v0⟩ := h
    by_cases hb : JVal.beq k0 p = true
    · simp [containsKeyJ, lookupJ, hb]
    · simp only [containsKeyJ, lookupJ, List.cons_append] at ih ⊢
      rw [if_neg (by simp [hb])]
      exact ih

/-- Delta initialization makes the path present. -/
theorem containsKeyJ_initDelta (d : List (JVal × String)) (p : JVal) :
    containsKeyJ (initDelta d p) p = true := by
  unfold initDelta
  by_cases h : containsKeyJ d p = true
  · rw [if_pos h]
    exact h
  · rw [if_neg (by simp [h])]
    exact containsKeyJ_append_self d p ""

/-- Rendering delta text as JSON strings preserves the key set. -/
theorem containsKeyJ_map_str (l : List (JVal × String)) (p : JVal) :
    containsKeyJ (l.map (fun pc => (pc.1, JVal.str pc.2))) p = containsKeyJ l p := by
  induction l with
  | nil => rfl
  | cons h t ih =>
    obtain ⟨k0, v0⟩ := h
    by_cases hb : JVal.beq k0 p = true
    · simp [containsKeyJ, lookupJ, hb]
    · simp only [containsKeyJ, lookupJ, List.map_cons] at ih ⊢
      rw [if_neg (by simp [hb]), if_neg (by simp [hb])]
      exact ih

/-- Delta initialization never empties the accumulator. -/
theorem initDelta_ne_nil (d : List (JVal × String)) (p : JVal) :
    initDelta d p ≠ [] := by
  unfold initDelta
  by_cases h : containsKeyJ d p = true
  · rw [if_pos h]
    intro he
    subst he
    exact absurd h (by simp [containsKeyJ, lookupJ])
  · rw [if_neg (by simp [h])]
    simp

/-- C3.  Wrapping mode is true exactly when the schema's top-level
properties consist of the single property `kwargs` whose object value
declares a non-empty nested `properties` map; in that case the nested
properties are the effective parameter description, otherwise the mode is
false and the top-level properties are.  The hypothesis is schema
well-formedness: a single `kwargs` property holds an object whose
`properties` entry, when present, is itself an object. -/
theorem resolveSchema_wrapping_iff (properties : PyDict)
    (hwf : ∀ v, properties = [("kwargs", v)] →
      ∃ kw, v = JVal.obj kw ∧ ∀ p, lookupKey kw "properties" = some p → ∃ m, p = JVal.obj m) :
    (∀ kw m, properties = [("kwargs", JVal.obj kw)] →
      lookupKey kw "properties" = some (JVal.obj m) → m ≠ [] →
      resolveSchema properties = some (true, JVal.obj m)) ∧
    ((¬ ∃ kw m, properties = [("kwargs", JVal.obj kw)] ∧
        lookupKey kw "properties" = some (JVal.obj m) ∧ m ≠ []) →
      resolveSchema properties = some (false, JVal.obj properties)) := by
  constructor
  · intro kw m h hl hm
    subst h
    have hck : containsKey [("kwargs", JVal.obj kw)] "kwargs" = true := rfl
    have hckp : containsKey kw "properties" = true := by
      rw [containsKey, hl]
      rfl
    simp only [resolveSchema]
    rw [if_pos ⟨rfl, hck⟩]
    have hlk : lookupKey [("kwargs", JVal.obj kw)] "kwargs" = some (JVal.obj kw) := rfl
    rw [hlk]
    simp only [pyContains, hckp]
    have hkd : lookupKeyD kw "properties" (JVal.obj []) = JVal.obj m := by
      rw [lookupKeyD, hl]
      rfl
    rw [hkd]
    have ht : pyTruthy (JVal.obj m) = true := by
      simp [pyTruthy, hm]
    rw [if_pos ht]
  · intro hnot
    rcases properties with _ | ⟨⟨k, v⟩, rest⟩
    · rfl
    · rcases rest with _ | ⟨p2, t⟩
      · by_cases hk : k = "kwargs"
        · subst hk
          obtain ⟨kw, rfl, hp⟩ := hwf v rfl
          have hck : containsKey [("kwargs", JVal.obj kw)] "kwargs" = true := rfl
          simp only [resolveSchema]
          rw [if_pos ⟨rfl, hck⟩]
          have hlk : lookupKey [("kwargs", JVal.obj kw)] "kwargs" = some (JVal.obj kw) := rfl
          rw [hlk]
          cases hspk : lookupKey kw "properties" with
          | none =>
            have hckp : containsKey kw "properties" = false := by
              rw [containsKey, hspk]
              rfl
            simp only [pyContains, hckp]
          | some p =>
            obtain ⟨m, rfl⟩ := hp p hspk
            have hckp : containsKey kw "properties" = true := by
              rw [containsKey, hspk]
              rfl
            simp only [pyContains, hckp]
            have hkd : lookupKeyD kw "properties" (JVal.obj []) = JVal.obj m := by
              rw [lookupKeyD, hspk]
              rfl
            rw [hkd]
            rcases m with _ | ⟨f, fs⟩
            · rw [if_neg (by simp [pyTruthy])]
            · exfalso
              exact hnot ⟨kw, f :: fs, rfl, hspk, by simp⟩
        · have hck : containsKey [(k, v)] "kwargs" = false := by
            simp [containsKey, lookupKey, hk]
          simp only [resolveSchema]
          rw [if_neg (by simp [hck])]
      · simp only [resolveSchema]
        rw [if_neg (by simp)]

/-- C3, witness. -/
theorem resolveSchema_wrapping_iff_witness :
    resolveSchema [("kwargs", JVal.obj [("type", JVal.str "object"),
        ("properties", JVal.obj [("a", JVal.obj []), ("b", JVal.obj [])])])] =
      some (true, JVal.obj [("a", JVal.obj []), ("b", JVal.obj [])]) := by
  have hwf : ∀ v, ([("kwargs", JVal.obj [("type", JVal.str "object"),
        ("properties", JVal.obj [("a", JVal.obj []), ("b", JVal.obj [])])])] : PyDict) =
        [("kwargs", v)] →
      ∃ kw, v = JVal.obj kw ∧
        ∀ p, lookupKey kw "properties" = some p → ∃ m, p = JVal.obj m := by
    intro v h
    have h1 := (List.cons.inj h).1
    have hv : JVal.obj [("type", JVal.str "object"),
        ("properties", JVal.obj [("a", JVal.obj []), ("b", JVal.obj [])])] = v :=
      congrArg Prod.snd h1
    refine ⟨[("type", JVal.str "object"),
        ("properties", JVal.obj [("a", JVal.obj []), ("b", JVal.obj [])])], hv.symm, ?_⟩
    intro p hp
    rw [show lookupKey [("type", JVal.str "object"),
        ("properties", JVal.obj [("a", JVal.obj []), ("b", JVal.obj [])])] "properties" =
      some (JVal.obj [("a", JVal.obj []), ("b", JVal.obj [])]) from rfl] at hp
    exact ⟨[("a", JVal.obj []), ("b", JVal.obj [])], (Option.some.inj hp).symm⟩
  exact (resolveSchema_wrapping_iff _ hwf).1
    [("type", JVal.str "object"),
     ("properties", JVal.obj [("a", JVal.obj []), ("b", JVal.obj [])])]
    [("a", JVal.obj []), ("b", JVal.obj [])] rfl rfl (by simp)

/-- C4.  Finalization from any terminal success state: non-empty `values`
are returned as-is (the result does not depend on `deltas` at all); empty
`values` are replaced by the accumulated deltas rendered as strings (an
empty `deltas` map then yields the empty output); exhausting the stream
always produces an `output` result, never an error. -/
theorem finalization_values_priority (v : List (JVal × JVal)) (d : List (JVal × String))
    (st : AccState) :
    (v ≠ [] → finalizeStream ⟨v, d⟩ = v) ∧
    (v = [] → finalizeStream ⟨v, d⟩ = d.map (fun pc => (pc.1, JVal.str pc.2))) ∧
    runStreamLoop st [] = StreamResult.output (finalizeStream st) := by
  refine ⟨?_, ?_, rfl⟩
  · intro hv
    cases v with
    | nil => exact absurd rfl hv
    | cons a t => rfl
  · intro hv
    subst hv
    cases d with
    | nil => rfl
    | cons p t => rfl

/-- C4, witness. -/
theorem finalization_values_priority_witness :
    finalizeStream ⟨[(JVal.str "a", JVal.num 1)], [(JVal.str "c", "hi")]⟩ =
      [(JVal.str "a", JVal.num 1)] :=
  (finalization_values_priority [(JVal.str "a", JVal.num 1)] [(JVal.str "c", "hi")]
    ⟨[], []⟩).1 (by simp)

/-- C5, counterexample.  The claim predicts that a path receiving only a
non-text delta event does not appear in the final output.  In fact the code
initializes `delta_paths[path]` to the empty string before testing the delta
type, so the path appears in the output bound to the empty string. -/
theorem nontext_delta_appears_counterexample :
    processSSEStream none [StreamItem.line 0
      "data: \x7b\"type\":\"delta\",\"path\":\"p\",\"delta\":\x7b\"type\":\"image\",\"value\":\"x\"\x7d\x7d"] =
      StreamResult.output [(JVal.str "p", JVal.str "")] ∧
    containsKeyJ [(JVal.str "p", JVal.str "")] (JVal.str "p") = true :=
  ⟨rfl, rfl⟩

/-- C5, amended.  A delta event whose `delta.type` is not `"text"` appends
no text, but it does initialize the path's delta entry to the empty string
when the path is new (leaving `values` untouched); consequently a path that
received only non-text delta events appears in the final output bound to the
empty string whenever no value events were collected. -/
theorem nontext_delta_initializes_path (st : AccState) (ev : PyDict) (dd : PyDict) :
    (lookupKeyD ev "type" (JVal.str "unknown") = JVal.str "delta" →
     lookupKeyD ev "delta" (JVal.obj []) = JVal.obj dd →
     lookupKeyD dd "type" JVal.null ≠ JVal.str "text" →
     dispatchEvent st ev = StepResult.cont
       ⟨st.values, initDelta st.deltas (lookupKeyD ev "path" (JVal.str ""))⟩) ∧
    (∀ (deltas : List (JVal × String)) (path : JVal),
      containsKeyJ (finalizeStream ⟨[], initDelta deltas path⟩) path = true) := by
  constructor
  · intro h1 h2 h3
    have hb : JVal.beq (lookupKeyD dd "type" JVal.null) (JVal.str "text") = false := by
      cases hbe : JVal.beq (lookupKeyD dd "type" JVal.null) (JVal.str "text") with
      | false => rfl
      | true => exact absurd ((JVal.beq_str_iff _ _).mp hbe) h3
    simp only [dispatchEvent, h1, h2, hb]
    rfl
  · intro deltas path
    have hne := initDelta_ne_nil deltas path
    unfold finalizeStream
    simp only []
    rw [if_pos]
    · rw [containsKeyJ_map_str]
      exact containsKeyJ_initDelta deltas path
    · simp [List.isEmpty_iff, hne]

/-- C5, witness. -/
theorem nontext_delta_initializes_path_witness :
    dispatchEvent ⟨[], []⟩ [("type", JVal.str "delta"), ("path", JVal.str "p"),
        ("delta", JVal.obj [("type", JVal.str "image")])] =
      StepResult.cont ⟨[], [(JVal.str "p", "")]⟩ :=
  (nontext_delta_initializes_path ⟨[], []⟩
    [("type", JVal.str "delta"), ("path", JVal.str "p"),
     ("delta", JVal.obj [("type", JVal.str "image")])]
    [("type", JVal.str "image")]).1 rfl rfl (by simp [lookupKeyD, lookupKey])

/-- C6.  The wall-clock budget is 180 seconds, checked before each received
line; once a line arrives past the deadline the loop stops and returns the
finalized accumulated state as an `output` result, never an error. -/
theorem deadline_exceeded_returns_output :
    maxWaitTime = 180 ∧
    ∀ (st : AccState) (e : Nat) (t : String) (rest : List StreamItem),
      e > maxWaitTime →
      runStreamLoop st (StreamItem.line e t :: rest) =
        StreamResult.output (finalizeStream st) := by
  refine ⟨rfl, ?_⟩
  intro st e t rest he
  rw [runStreamLoop]
  rw [if_pos he]

/-- C6, witness. -/
theorem deadline_exceeded_returns_output_witness :
    runStreamLoop ⟨[(JVal.str "a", JVal.num 1)], []⟩ [StreamItem.line 181 "x"] =
      StreamResult.output [(JVal.str "a", JVal.num 1)] :=
  deadline_exceeded_returns_output.2 ⟨[(JVal.str "a", JVal.num 1)], []⟩ 181 "x" []
    (by decide)

/-- C7.  A non-success status on opening the stream, or a transport fault
raised while iterating it, yields an error result immediately: the returned
dictionary carries only the error message, never an `output` key nor any
partially accumulated values or deltas. -/
theorem stream_failure_returns_error :
    (∀ (msg : String) (items : List StreamItem),
      processSSEStream (some msg) items = StreamResult.error ("Stream error: " ++ msg)) ∧
    (∀ (st : AccState) (msg : String) (rest : List StreamItem),
      runStreamLoop st (StreamItem.fault msg :: rest) =
        StreamResult.error ("Stream error: " ++ msg)) :=
  ⟨fun _ _ => rfl, fun _ _ _ => rfl⟩

/-- C8, counterexample.  The claim predicts that whitespace runs collapse to
single underscores and that titles containing digits or punctuation always
derive names made only of lowercase letters and underscores.  In fact each
space becomes its own underscore (`"A  B1"` gives `"a__b"`, not `"a_b"`),
non-space whitespace such as a tab survives into the name (`"1a\x09b"`
gives `"a\x09b"`), and the ID-derived fallback can carry digits and
punctuation (`"123"` with ID `"id-9"` gives `"wordware_tool_id-9"`). -/
theorem tool_name_counterexample :
    deriveToolName "1a\x09b" "toolid" = "a\x09b" ∧
    '\x09' ∈ ("a\x09b" : String).toList ∧
    ¬('\x09'.isLower = true ∨ '\x09' = '_') ∧
    deriveToolName "A  B1" "toolid" = "a__b" ∧ ("a__b" : String) ≠ "a_b" ∧
    deriveToolName "123" "id-9" = "wordware_tool_id-9" :=
  ⟨rfl, by decide, by decide, rfl, by decide, rfl⟩

/-- C8, amended.  The derived tool name keeps only the alphabetic and
whitespace characters of the title, folds them to lowercase, and replaces
each space character with one underscore (a run of `n` spaces yields `n`
underscores and other whitespace characters are kept verbatim, witnessed by
the length-preservation clause); the name is never empty, falling back to
`wordware_tool_` plus the last 8 characters of the tool ID when the
normalized title is empty; and when the title's whitespace consists only of
plain spaces and the normalized title is non-empty, the derived name
contains only lowercase letters and underscores. -/
theorem tool_name_derivation_amended (title toolId : String) :
    deriveToolName title toolId ≠ "" ∧
    (normalizeTitle title = "" →
      deriveToolName title toolId = "wordware_tool_" ++ lastChars 8 toolId) ∧
    (normalizeTitle title ≠ "" → deriveToolName title toolId = normalizeTitle title) ∧
    ((∀ c ∈ title.toList, pyIsSpace c = true → c = ' ') →
      ∀ c ∈ (normalizeTitle title).toList, c.isLower = true ∨ c = '_') ∧
    (normalizeTitle title).toList.length =
      (title.toList.filter (fun c => pyIsAlpha c || pyIsSpace c)).length := by
  have hcase : ∀ h : normalizeTitle title = "",
      deriveToolName title toolId = "wordware_tool_" ++ lastChars 8 toolId := by
    intro h
    unfold deriveToolName
    rw [if_pos h]
  have hcase2 : ∀ _ : normalizeTitle title ≠ "",
      deriveToolName title toolId = normalizeTitle title := by
    intro h
    unfold deriveToolName
    rw [if_neg h]
  refine ⟨?_, hcase, hcase2, ?_, ?_⟩
  · by_cases h : normalizeTitle title = ""
    · rw [hcase h]
      intro hc
      have h2 := congrArg String.toList hc
      exact absurd h2 (by simp [lastChars])
    · rw [hcase2 h]
      exact h
  · intro hsp c hc
    have hc' : c ∈ (title.toList.filter (fun c => pyIsAlpha c || pyIsSpace c)).map
        (fun c0 => let lc := pyToLower c0; if lc = ' ' then '_' else lc) := hc
    rcases List.mem_map.mp hc' with ⟨c0, hmem, hfc⟩
    rcases List.mem_filter.mp hmem with ⟨hmt, hp⟩
    rcases Bool.or_eq_true _ _ |>.mp hp with halpha | hspace
    · have hl := pyToLower_isLower halpha
      have hne := isLower_ne_space hl
      rw [← hfc]
      simp only [if_neg hne]
      exact Or.inl hl
    · have hc0 : c0 = ' ' := hsp c0 hmt hspace
      subst hc0
      rw [← hfc]
      exact Or.inr rfl
  · simp [normalizeTitle]

/-- C8, witness. -/
theorem tool_name_derivation_amended_witness :
    deriveToolName "My Tool" "abc" ≠ "" ∧
    deriveToolName "My Tool" "abc" = normalizeTitle "My Tool" ∧
    (∀ c ∈ (normalizeTitle "My Tool").toList, c.isLower = true ∨ c = '_') :=
  ⟨(tool_name_derivation_amended "My Tool" "abc").1,
   (tool_name_derivation_amended "My Tool" "abc").2.2.1 (by decide),
   fun c hc => (tool_name_derivation_amended "My Tool" "abc").2.2.2.1 (by decide) c hc⟩

/-- C9.  When the caller arguments are exactly `kwargs` bound to a string,
the string is stripped of surrounding backticks; when the stripped string
looks like a JSON object and parses, the parsed mapping becomes the working
argument set; when the parse fails, or the stripped string does not look
like a JSON object, the original single-key argument set is kept unchanged
(normalization is a total function, so no exception is raised). -/
theorem kwargs_string_normalization (s : String) :
    (∀ d, pyStartsWith (pyStrip (fun c => c = backtickChar) s) "\x7b" = true →
      pyEndsWith (pyStrip (fun c => c = backtickChar) s) "\x7d" = true →
      jsonParse (pyStrip (fun c => c = backtickChar) s) = some (JVal.obj d) →
      processedInputs [("kwargs", JVal.str s)] = d) ∧
    (jsonParse (pyStrip (fun c => c = backtickChar) s) = none →
      processedInputs [("kwargs", JVal.str s)] = [("kwargs", JVal.str s)]) ∧
    (¬(pyStartsWith (pyStrip (fun c => c = backtickChar) s) "\x7b" = true ∧
       pyEndsWith (pyStrip (fun c => c = backtickChar) s) "\x7d" = true) →
      processedInputs [("kwargs", JVal.str s)] = [("kwargs", JVal.str s)]) := by
  have hdef : processedInputs [("kwargs", JVal.str s)] =
      (if pyStartsWith (pyStrip (fun c => c = backtickChar) s) "\x7b" &&
          pyEndsWith (pyStrip (fun c => c = backtickChar) s) "\x7d" then
        match jsonParse (pyStrip (fun c => c = backtickChar) s) with
        | some (JVal.obj d) => d
        | _ => [("kwargs", JVal.str s)]
      else [("kwargs", JVal.str s)]) := rfl
  refine ⟨?_, ?_, ?_⟩
  · intro d h1 h2 h3
    rw [hdef, h1, h2, h3]
    rfl
  · intro h3
    rw [hdef]
    by_cases hck : (pyStartsWith (pyStrip (fun c => c = backtickChar) s) "\x7b" &&
        pyEndsWith (pyStrip (fun c => c = backtickChar) s) "\x7d") = true
    · rw [hck, h3]
      rfl
    · rw [if_neg (by simp [hck])]
  · intro hno
    rw [hdef]
    rw [if_neg]
    intro hck
    rcases Bool.and_eq_true _ _ |>.mp hck with ⟨h1, h2⟩
    exact hno ⟨h1, h2⟩

/-- C9, witness. -/
theorem kwargs_string_normalization_witness :
    processedInputs [("kwargs", JVal.str "\x7b\"x\": 5\x7d")] = [("x", JVal.num 5)] :=
  (kwargs_string_normalization "\x7b\"x\": 5\x7d").1 [("x", JVal.num 5)] rfl rfl rfl

/-- C10, counterexample.  The claim predicts that a structured (non-string)
`completion_output` is returned as the authoritative final object.  In fact
a completion dict containing the key `result` is unwrapped to that entry
alone, discarding the rest of the object. -/
theorem completion_result_field_counterexample :
    materializeResult [("output", JVal.obj [("completion_output",
        JVal.obj [("result", JVal.str "inner"), ("extra", JVal.num 1)])])] =
      some (MatAnswer.completionResultField (JVal.str "inner")) ∧
    MatAnswer.completionResultField (JVal.str "inner") ≠
      MatAnswer.completionDump
        (JVal.obj [("result", JVal.str "inner"), ("extra", JVal.num 1)]) :=
  ⟨rfl, by simp⟩

/-- C10, amended.  For a materialized result that is either an error or an
output (the only shapes the submitter produces): with no `output` key, a
present `error` value is surfaced verbatim; with an output mapping, a
string `completion_output` is the answer verbatim, a dict `completion_output`
containing `result` yields that entry's value alone, a dict without
`result` is returned whole as the final object, and without any
`completion_output` the entire output mapping is the answer. -/
theorem materialize_priority_amended (result : PyDict) :
    (lookupKey result "output" = none → ∀ e, lookupKey result "error" = some e →
      materializeResult result = some (MatAnswer.errorAnswer e)) ∧
    (∀ output, lookupKey result "output" = some (JVal.obj output) →
      (∀ s, lookupKey output "completion_output" = some (JVal.str s) →
        materializeResult result = some (MatAnswer.completionString s)) ∧
      (∀ c, lookupKey output "completion_output" = some (JVal.obj c) →
        (∀ r0, lookupKey c "result" = some r0 →
          materializeResult result = some (MatAnswer.completionResultField r0)) ∧
        (lookupKey c "result" = none →
          materializeResult result = some (MatAnswer.completionDump (JVal.obj c)))) ∧
      (lookupKey output "completion_output" = none →
        materializeResult result = some (MatAnswer.formattedOutput output))) := by
  constructor
  · intro hout e herr
    have hco : containsKey result "output" = false := by
      rw [containsKey, hout]
      rfl
    have hce : containsKey result "error" = true := by
      rw [containsKey, herr]
      rfl
    have hde : lookupKeyD result "error" JVal.null = e := by
      rw [lookupKeyD, herr]
      rfl
    unfold materializeResult
    rw [if_neg (by simp [hco]), if_pos hce, hde]
  · intro output hout
    have hco : containsKey result "output" = true := by
      rw [containsKey, hout]
      rfl
    have hdo : lookupKeyD result "output" JVal.null = JVal.obj output := by
      rw [lookupKeyD, hout]
      rfl
    refine ⟨?_, ?_, ?_⟩
    · intro s hs
      have hcc : containsKey output "completion_output" = true := by
        rw [containsKey, hs]
        rfl
      have hdc : lookupKeyD output "completion_output" JVal.null = JVal.str s := by
        rw [lookupKeyD, hs]
        rfl
      unfold materializeResult
      rw [if_pos hco, hdo]
      dsimp only
      rw [hcc, if_pos rfl, hdc]
    · intro c hcobj
      have hcc : containsKey output "completion_output" = true := by
        rw [containsKey, hcobj]
        rfl
      have hdc : lookupKeyD output "completion_output" JVal.null = JVal.obj c := by
        rw [lookupKeyD, hcobj]
        rfl
      constructor
      · intro r0 hr0
        have hcr : containsKey c "result" = true := by
          rw [containsKey, hr0]
          rfl
        have hdr : lookupKeyD c "result" JVal.null = r0 := by
          rw [lookupKeyD, hr0]
          rfl
        unfold materializeResult
        rw [if_pos hco, hdo]
        dsimp only
        rw [hcc, if_pos rfl, hdc]
        dsimp only
        rw [hcr, if_pos rfl, hdr]
      · intro hr0
        have hcr : containsKey c "result" = false := by
          rw [containsKey, hr0]
          rfl
        unfold materializeResult
        rw [if_pos hco, hdo]
        dsimp only
        rw [hcc, if_pos rfl, hdc]
        dsimp only
        rw [hcr, if_neg (by decide)]
    · intro hnone
      have hcc : containsKey output "completion_output" = false := by
        rw [containsKey, hnone]
        rfl
      unfold materializeResult
      rw [if_pos hco, hdo]
      dsimp only
      rw [hcc, if_neg (by decide)]

/-- C10, witness. -/
theorem materialize_priority_amended_witness :
    materializeResult [("error", JVal.str "boom")] =
      some (MatAnswer.errorAnswer (JVal.str "boom")) :=
  (materialize_priority_amended [("error", JVal.str "boom")]).1 rfl (JVal.str "boom") rfl
